import Mathlib

/-!
Verification of the feathercharts interactive SQL shell server.

The embedding below models, faithfully to the TypeScript sources:
- the completion detector and command runner `DuckDB.runCmd` (src/src/server.ts),
- the WebSocket session bridge `handleWebSocket` (src/server.ts) together with
  the browser client's submission gate (src/src/client.vue),
- the REST handler for POST /api/query and the history recorder
  `DuckDB.saveQueryHistory` / `DuckDB.initQueryHistoryTable` (src/src/server.ts),
- the binary provisioner `getDuckDB` (src/src/server.ts), and
- the parameter-placeholder substitution in `DuckDB.query` plus the SQL built
  by the PUT /api/:table/:id handler (src/src/server.ts).

Text is modelled as `List Char`; process output streams as the finite list of
chunks a reader will receive, plus a flag saying whether the stream then
closes (a pending read on an exhausted, still-open stream blocks forever,
modelled as `none`).
-/

namespace Feather

/-- Character-list model of JavaScript strings. -/
abbrev Str := List Char

/-- JavaScript whitespace test used by `String.prototype.trim` (ASCII core). -/
def jsWhite (c : Char) : Bool :=
  c == ' ' || c == '\t' || c == '\n' || c == '\r' || c == '\x0b' || c == '\x0c'

/-- `String.prototype.trim`: drop whitespace from both ends. -/
def jsTrim (s : Str) : Str :=
  ((s.dropWhile jsWhite).reverse.dropWhile jsWhite).reverse

/-! ## Process Supervisor and Completion Detector (src/src/server.ts, DuckDB.runCmd) -/

/-- The completion marker the CLI prints with `.timer on`: `out.includes("Run Time:")`. -/
def marker : Str := "Run Time:".toList

/-- One captured output stream of the subprocess: the chunks future reads will
return, and whether the stream closes after them (`done`).  An exhausted stream
that is not closed makes the next read block forever. -/
structure IoStream where
  chunks : List Str
  closed : Bool

/-- The stdout loop of `runCmd`: read a chunk, stop on `done`, append it to the
buffer, stop as soon as the buffer contains the marker.  `none` means the loop
blocks forever on a read. -/
def stdoutPhase : Str → List Str → Bool → Option Str
  | buf, [], true => some buf
  | _, [], false => none
  | buf, c :: rest, closed =>
    if List.IsInfix marker (buf ++ c) then some (buf ++ c)
    else stdoutPhase (buf ++ c) rest closed

/-- The stderr loop of `runCmd`: read a chunk, stop on `done`, append, stop as
soon as the accumulated diagnostic text contains a newline. -/
def stderrPhase : Str → List Str → Bool → Option Str
  | buf, [], true => some buf
  | _, [], false => none
  | buf, c :: rest, closed =>
    if (buf ++ c).contains '\n' then some (buf ++ c)
    else stderrPhase (buf ++ c) rest closed

/-- Outcome of one `runCmd` call: normal return of the trimmed output, or the
thrown error carrying the trimmed diagnostic text. -/
inductive CmdOutcome where
  | ok (out : Str)
  | err (e : Str)
deriving DecidableEq

/-- `DuckDB.runCmd` after the stdin write: drain stdout until the marker (or
stream end), then drain stderr until a newline (or stream end); if the
diagnostic text is non-empty the command fails with it, otherwise the trimmed
primary output is returned.  `none` means `runCmd` never returns. -/
def runCmd (outS errS : IoStream) : Option CmdOutcome :=
  match stdoutPhase [] outS.chunks outS.closed with
  | none => none
  | some out =>
    match stderrPhase [] errS.chunks errS.closed with
    | none => none
    | some err =>
      if err.isEmpty then some (.ok (jsTrim out)) else some (.err (jsTrim err))

/-- `runCmd` writes its command with a single newline appended (`cmd + "\n"`). -/
def runCmdWrite (cmd : Str) : Str := cmd ++ ['\n']

/-! ## Session Bridge (src/server.ts, handleWebSocket) and client gate (src/src/client.vue) -/

/-- A WebSocket client-to-server frame: a text frame or a binary frame. -/
inductive WsFrame where
  | text (s : Str)
  | binary
deriving DecidableEq

/-- The bridge's `ws.onmessage` handler: a string frame is written to the
subprocess stdin with a newline appended; anything else is ignored.
Returns the bytes written, if any. -/
def onMessageWrite : WsFrame → Option Str
  | .text s => some (s ++ ['\n'])
  | .binary => none

/-- The client's `isValidQuery`: the trimmed text starts with a `.` or ends
with a `;`. -/
def isValidQuery (q : Str) : Bool :=
  let t := jsTrim q
  t.head? == some '.' || t.getLast? == some ';'

/-- The client's `sendQuery`: the current query is sent as a frame only when
`isValidQuery()` holds and the socket exists; otherwise nothing is sent (the
text stays in the client-side buffer as a continuation). -/
def clientSendFrame (q : Str) (wsOpen : Bool) : Option Str :=
  if isValidQuery q && wsOpen then some q else none

/-- An event the bridge reacts to: a client frame, or a chunk read from the
subprocess's stdout or stderr pump. -/
inductive BridgeEv where
  | fromClient (f : WsFrame)
  | outChunk (s : Str)
  | errChunk (s : Str)
deriving DecidableEq

/-- An action the bridge performs: a write to subprocess stdin, or a tagged
event sent to the client (`isErr` distinguishes the stderr tag). -/
inductive BridgeAct where
  | writeStdin (s : Str)
  | sendEvent (isErr : Bool) (s : Str)
deriving DecidableEq

/-- One step of `handleWebSocket`: `ws.onmessage` writes text frames verbatim
with a newline; the stdout pump forwards chunks tagged `stdout`; the stderr
pump forwards chunks tagged `stderr`. -/
def bridgeStep : BridgeEv → List BridgeAct
  | .fromClient (.text s) => [.writeStdin (s ++ ['\n'])]
  | .fromClient .binary => []
  | .outChunk s => [.sendEvent false s]
  | .errChunk s => [.sendEvent true s]

/-- The bridge's behaviour over a whole interleaved event trace. -/
def bridgeRun (tr : List BridgeEv) : List BridgeAct :=
  tr.flatMap bridgeStep

/-- Whether an action is a write to the subprocess input. -/
def isWrite : BridgeAct → Bool
  | .writeStdin _ => true
  | _ => false

/-- Two consecutive stdin writes with no intervening action at all. -/
def hasAdjacentWrites : List BridgeAct → Bool
  | a :: b :: t => (isWrite a && isWrite b) || hasAdjacentWrites (b :: t)
  | _ => false

/-- Every client text frame in a trace passes the well-formedness test. -/
def framesWellFormed (tr : List BridgeEv) : Bool :=
  tr.all fun e =>
    match e with
    | .fromClient (.text s) => isValidQuery s
    | _ => true

/-- The stdin writes the bridge performs along a trace, in order. -/
def stdinWrites (tr : List BridgeEv) : List Str :=
  (bridgeRun tr).filterMap fun a =>
    match a with
    | .writeStdin s => some s
    | _ => none

/-- The client text frames of a trace, in order. -/
def clientTexts (tr : List BridgeEv) : List Str :=
  tr.filterMap fun e =>
    match e with
    | .fromClient (.text s) => some s
    | _ => none

/-! ## POST /api/query handler (src/src/server.ts, createRestApi) -/

/-- The body of an HTTP response of the handler (json branch): either the raw
command output, or the error object built in the catch clause. -/
inductive RespBody where
  | outText (s : Str)
  | errMsg (s : Str)
deriving DecidableEq

/-- An HTTP response: status (oak's default 200 unless set) and body. -/
structure Resp where
  status : Nat
  body : RespBody
deriving DecidableEq

/-- Outcome of the `saveQueryHistory` call: success, or the thrown error. -/
inductive HistOutcome where
  | ok
  | err (e : Str)
deriving DecidableEq

/-- Dataflow of the POST /api/query handler, json branch: inside one `try`,
`runCmd(query)` runs and then `saveQueryHistory` runs; only afterwards the
response body is set to the command's output.  An exception thrown by either
step reaches the single `catch`, which sets status 400 and an error body. -/
def apiQueryJson (cmd : CmdOutcome) (hist : HistOutcome) : Resp :=
  match cmd with
  | .err e => ⟨400, .errMsg e⟩
  | .ok out =>
    match hist with
    | .err e => ⟨400, .errMsg e⟩
    | .ok => ⟨200, .outText out⟩

/-! ## Binary Provisioner (src/src/server.ts, getDuckDB) -/

/-- The fixed install location used by `getDuckDB`. -/
def tmpDuckDBPath : Str := "/tmp/duckdb".toList

/-- The environment `getDuckDB` runs in: the trimmed stdout of
`which duckdb` (empty on failure), the `fileExists` predicate, and whether the
curl-and-unzip download command would succeed. -/
structure ProvEnv where
  whichPath : Str
  present : Str → Bool
  downloadOk : Bool

/-- Result of a provisioner run: the returned path together with whether a
download was performed, or the thrown installation error. -/
inductive ProvResult where
  | ok (path : Str) (downloaded : Bool)
  | installFailed
deriving DecidableEq

/-- `getDuckDB`: iterate over the candidates `[whichPath, "/tmp/duckdb"]` in
that order, returning the first that exists; otherwise download into
`/tmp/duckdb`, failing if the download fails.  The boolean records whether a
download was performed. -/
def getDuckDB (e : ProvEnv) : ProvResult :=
  if e.present e.whichPath then .ok e.whichPath false
  else if e.present tmpDuckDBPath then .ok tmpDuckDBPath false
  else if e.downloadOk then .ok tmpDuckDBPath true
  else .installFailed

/-- Modelled from the spec: the candidate order the spec describes for the
Binary Provisioner — the cached install location first, the search-path
executable second (the download tail as in the code).  Stated only to be
compared with `getDuckDB`. -/
def ensureSpecOrder (e : ProvEnv) : ProvResult :=
  if e.present tmpDuckDBPath then .ok tmpDuckDBPath false
  else if e.present e.whichPath then .ok e.whichPath false
  else if e.downloadOk then .ok tmpDuckDBPath true
  else .installFailed

/-- The filesystem after a run of `getDuckDB`: a successful download makes
`/tmp/duckdb` exist; otherwise nothing changed. -/
def afterRun (e : ProvEnv) (downloaded : Bool) : ProvEnv :=
  if downloaded then { e with present := fun q => q == tmpDuckDBPath || e.present q }
  else e

/-! ## Process Supervisor initialization (src/src/server.ts, DuckDB.constructor)
     versus the WebSocket spawn path (src/server.ts, handleWebSocket) -/

/-- First initialization command of the `DuckDB` constructor. -/
def echoCmd : Str := ".echo on".toList

/-- Second initialization command of the `DuckDB` constructor. -/
def timerCmd : Str := ".timer on".toList

/-- The exact template literal passed to `runCmd` by `initQueryHistoryTable`. -/
def createHistoryTableSql : Str :=
  ("\n      CREATE TABLE IF NOT EXISTS _query_history (\n        query_hash VARCHAR,\n        query_text TEXT,\n        result_file VARCHAR,\n        query_time DOUBLE,\n        execution_time TIMESTAMP\n      );\n    ").toList

/-- The stdin writes issued by the `DuckDB` constructor right after spawning,
before any user command: `[".echo on", ".timer on"].forEach(cmd => this.runCmd(cmd))`
followed by `initQueryHistoryTable()`, each write being `cmd + "\n"`. -/
def duckdbCtorWrites : List Str :=
  ([echoCmd, timerCmd].map runCmdWrite) ++ [runCmdWrite createHistoryTableSql]

/-- The stdin writes issued by `handleWebSocket` (src/server.ts) between
spawning the subprocess and the first client message: it only creates the
stdin writer and installs handlers, so there are none. -/
def wsSessionInitWrites : List Str := []

/-- A write list contains the three initialization commands: enable echo,
enable the timer (so the completion marker appears), and create the history
table if absent. -/
def hasInitWrites (l : List Str) : Prop :=
  runCmdWrite echoCmd ∈ l ∧ runCmdWrite timerCmd ∈ l ∧
    runCmdWrite createHistoryTableSql ∈ l

instance (l : List Str) : Decidable (hasInitWrites l) := by
  unfold hasInitWrites; infer_instance

/-! ## History Recorder (src/src/server.ts, initQueryHistoryTable / saveQueryHistory) -/

/-- A column type as written in the CREATE TABLE statement. -/
inductive SqlType where
  | varchar
  | text
  | double
  | timestamp
deriving DecidableEq

/-- A column declaration: name, type, and an optional declared DEFAULT. -/
structure ColumnDef where
  name : String
  ctype : SqlType
  dflt : Option String
deriving DecidableEq

/-- The history table schema, transcribed from the CREATE TABLE statement in
`initQueryHistoryTable`: five columns, none of which carries a DEFAULT clause. -/
def historyTableColumns : List ColumnDef :=
  [⟨"query_hash", .varchar, none⟩,
   ⟨"query_text", .text, none⟩,
   ⟨"result_file", .varchar, none⟩,
   ⟨"query_time", .double, none⟩,
   ⟨"execution_time", .timestamp, none⟩]

/-- Modelled from the spec: the schema the spec describes, where
`execution_time` is a timestamp defaulting to the current time.  Stated only
to be compared with `historyTableColumns`. -/
def specHistoryColumns : List ColumnDef :=
  [⟨"query_hash", .varchar, none⟩,
   ⟨"query_text", .text, none⟩,
   ⟨"result_file", .varchar, none⟩,
   ⟨"query_time", .double, none⟩,
   ⟨"execution_time", .timestamp, some "CURRENT_TIMESTAMP"⟩]

/-- `queryText.replace(/'/g, "''")`: double every single quote. -/
def escapeQuotes (s : Str) : Str :=
  s.flatMap fun c => if c = '\'' then [c, c] else [c]

/-- A value in the VALUES list of the history INSERT. -/
inductive SqlValue where
  | strLit (s : Str)
  | numLit (s : Str)
  | currentTimestamp
deriving DecidableEq

/-- The column list of the INSERT issued by `saveQueryHistory`. -/
def saveQueryHistoryColumns : List String :=
  ["query_hash", "query_text", "result_file", "query_time", "execution_time"]

/-- The VALUES list of the INSERT issued by `saveQueryHistory`: the hash, the
quote-escaped text, the result file, the rendered elapsed seconds, and an
explicit `CURRENT_TIMESTAMP`. -/
def saveQueryHistoryValues (queryHash queryText resultFile queryTime : Str) :
    List SqlValue :=
  [.strLit queryHash, .strLit (escapeQuotes queryText), .strLit resultFile,
   .numLit queryTime, .currentTimestamp]

/-! ## Fingerprint (src/src/server.ts, hashQuery) -/

/-- `b.toString(16).padStart(2, '0')` for a byte `b < 256`: the high and low
hex digits, the high digit being the `'0'` pad when `b < 16`. -/
def byteToHex (b : Nat) : Str :=
  [Nat.digitChar (b / 16), Nat.digitChar (b % 16)]

/-- `Array.from(new Uint8Array(hash)).map(b => ...).join('')`: concatenate the
two-digit hex renderings of the digest bytes. -/
def hexEncode (bytes : List Nat) : Str :=
  (bytes.map byteToHex).flatten

/-- `hashQuery`, with the external `crypto.subtle.digest("SHA-256",
TextEncoder.encode(str))` primitive abstracted as `digest`: the fingerprint is
the hex encoding of the digest of the text. -/
def hashQuery (digest : Str → List Nat) (s : Str) : Str :=
  hexEncode (digest s)

/-- A stand-in digest used to instantiate hypotheses at concrete inputs. -/
def testDigest : Str → List Nat := fun l => [l.length % 256]

/-! ## Parameter placeholders (src/src/server.ts, DuckDB.query and the
     PUT /api/:table/:id handler) -/

/-- `String.prototype.replace` with the one-character string pattern `'?'`:
only the first occurrence is replaced. -/
def replaceFirstChar (c : Char) (repl : Str) : Str → Str
  | [] => []
  | x :: xs => if x = c then repl ++ xs else x :: replaceFirstChar c repl xs

/-- JavaScript rendering of a nonnegative integer, digit characters in base 10. -/
def natToChars (n : Nat) : Str :=
  if _h : n < 10 then [Nat.digitChar n]
  else natToChars (n / 10) ++ [Nat.digitChar (n % 10)]
decreasing_by exact Nat.div_lt_self (by omega) (by omega)

/-- `Array.prototype.join(sep)`. -/
def joinSep (sep : Str) : List Str → Str
  | [] => []
  | [x] => x
  | x :: y :: t => x ++ sep ++ joinSep sep (y :: t)

/-- `params.map((_, i) => `$` + (i + 1)).join(', ')` for `k` parameters. -/
def paramPlaceholders (k : Nat) : Str :=
  joinSep ", ".toList ((List.range k).map fun i => '$' :: natToChars (i + 1))

/-- `DuckDB.query`'s `fullSql`: the (first) `'?'` of the SQL replaced by the
generated placeholder list for `k` parameters. -/
def fullSql (sql : Str) (k : Nat) : Str :=
  replaceFirstChar '?' (paramPlaceholders k) sql

/-- `Object.keys(body).map(key => key + " = ?").join(", ")`. -/
def setClauses (cols : List Str) : Str :=
  joinSep ", ".toList (cols.map fun k => k ++ " = ?".toList)

/-- The SQL text built by the PUT /api/:table/:id handler. -/
def putSql (table : Str) (cols : List Str) : Str :=
  "UPDATE ".toList ++ table ++ " SET ".toList ++ setClauses cols ++
    " WHERE id = ? RETURNING *".toList

/-- Occurrences of `'?'` in a text. -/
def countQ (l : Str) : Nat := l.count '?'

/-! ## Helper lemmas -/

/-- The stdout loop stops exactly at the first read that makes the buffer
contain the marker, and the buffer then holds the concatenation of everything
read so far. -/
theorem stdoutPhase_first_match (chunks : List Str) (closed : Bool) :
    ∀ (n : Nat) (buf : Str), 1 ≤ n → n ≤ chunks.length →
      List.IsInfix marker (buf ++ (chunks.take n).flatten) →
      (∀ m < n, ¬ List.IsInfix marker (buf ++ (chunks.take m).flatten)) →
      stdoutPhase buf chunks closed = some (buf ++ (chunks.take n).flatten) := by
  induction chunks with
  | nil =>
    intro n buf h1 h2 _ _
    simp at h2
    omega
  | cons c rest ih =>
    intro n buf h1 h2 h3 h4
    match n with
    | 1 =>
      simp only [List.take_succ_cons, List.take_zero, List.flatten_cons,
        List.flatten_nil, List.append_nil] at h3 ⊢
      simp only [stdoutPhase, if_pos h3]
    | (k + 2) =>
      have hne : ¬ List.IsInfix marker (buf ++ c) := by
        have := h4 1 (by omega)
        simpa using this
      simp only [stdoutPhase, if_neg hne]
      have hgoal := ih (k + 1) (buf ++ c) (by omega) (by simpa using h2)
        (by simpa [List.append_assoc] using h3)
        (by
          intro m hm
          have := h4 (m + 1) (by omega)
          simpa [List.append_assoc] using this)
      rw [hgoal]
      simp [List.append_assoc]

/-! ## Claim C1 -/

/-- Claim C1, as stated, is false: it says that for every command with
non-empty diagnostic output the wait ends without requiring the stdout marker,
in particular when no primary output precedes the error.  In `runCmd` the
stdout loop runs to the marker (or stream close) before stderr is ever read,
so with an error on stderr but a silent, still-open stdout the command's wait
never ends. -/
theorem c1_counterexample :
    ¬ (∀ outS errS : IoStream, errS.chunks.flatten ≠ [] →
        runCmd outS errS ≠ none) := by
  intro h
  exact h ⟨[], false⟩ ⟨["Error: no stdout\n".toList], false⟩ (by decide) rfl

/-- Claim C1 (amended): `runCmd` consults the diagnostic channel only after the
primary wait ends — if the stdout loop never returns, `runCmd` never returns,
whatever stderr holds; once the stdout loop has returned (marker found or
stdout closed), non-empty diagnostic output ends the command as an error. -/
theorem c1_amended :
    (∀ outS errS : IoStream, stdoutPhase [] outS.chunks outS.closed = none →
        runCmd outS errS = none) ∧
    (∀ (outS errS : IoStream) (out err : Str),
        stdoutPhase [] outS.chunks outS.closed = some out →
        stderrPhase [] errS.chunks errS.closed = some err →
        err.isEmpty = false →
        runCmd outS errS = some (.err (jsTrim err))) := by
  constructor
  · intro outS errS h
    simp [runCmd, h]
  · intro outS errS out err h1 h2 h3
    simp [runCmd, h1, h2, h3]

/-- Witness for `c1_amended` at concrete streams: a process that stays silent
on a closed run, and a run whose stdout carries the marker while stderr
carries an error line. -/
theorem c1_witness :
    runCmd ⟨[], false⟩ ⟨[], true⟩ = none ∧
    runCmd ⟨["x Run Time: 0.1s\n".toList], false⟩
        ⟨["Error: nope\n".toList], false⟩
      = some (.err (jsTrim "Error: nope\n".toList)) := by
  refine ⟨c1_amended.1 ⟨[], false⟩ ⟨[], true⟩ rfl, ?_⟩
  exact c1_amended.2 ⟨["x Run Time: 0.1s\n".toList], false⟩
    ⟨["Error: nope\n".toList], false⟩
    ("x Run Time: 0.1s\n".toList) ("Error: nope\n".toList)
    (by decide) (by decide) (by decide)

/-! ## Claim C3 -/

/-- Claim C3: the completion detector accumulates stdout chunks into a buffer
and signals completion at the first read after which the buffer contains the
marker `"Run Time:"`; the signalled buffer is exactly the concatenation of the
chunks read, and (the loop being a function that stops right there) the signal
is produced exactly once — any signalled value equals that one buffer. -/
theorem c3_first_marker_read (chunks : List Str) (closed : Bool) (n : Nat)
    (h1 : 1 ≤ n) (h2 : n ≤ chunks.length)
    (h3 : List.IsInfix marker ((chunks.take n).flatten))
    (h4 : ∀ m < n, ¬ List.IsInfix marker ((chunks.take m).flatten)) :
    stdoutPhase [] chunks closed = some ((chunks.take n).flatten) ∧
    ∀ r : Str, stdoutPhase [] chunks closed = some r →
      r = (chunks.take n).flatten := by
  have hmain := stdoutPhase_first_match chunks closed n [] h1 h2
    (by simpa using h3) (by simpa using h4)
  simp only [List.nil_append] at hmain
  refine ⟨hmain, fun r hr => ?_⟩
  rw [hmain] at hr
  exact (Option.some.inj hr).symm

/-- Witness for `c3_first_marker_read`: the marker arrives split across the
second and third chunks; completion is signalled exactly at the third read. -/
theorem c3_witness :
    stdoutPhase [] ["ab".toList, "Run Ti".toList, "me: 0.2\n".toList] true
      = some (["ab".toList, "Run Ti".toList, "me: 0.2\n".toList].take 3).flatten := by
  exact (c3_first_marker_read ["ab".toList, "Run Ti".toList, "me: 0.2\n".toList]
    true 3 (by decide) (by decide) (by decide) (by decide)).1

/-! ## Claim C2 -/

/-- Claim C2, as stated, is false: it says a frame received by the bridge is
written to the process input if and only if its trimmed text starts with `.`
or ends with `;`.  The bridge's `ws.onmessage` writes every string frame
unconditionally: the non-conforming frame `"SELECT 1"` is written. -/
theorem c2_counterexample :
    ¬ (∀ s : Str, (onMessageWrite (.text s)).isSome = isValidQuery s) := by
  intro h
  exact absurd (h "SELECT 1".toList) (by decide)

/-- Claim C2 (amended): the bridge writes every string frame it receives
(newline-appended) and ignores non-string frames; the well-formedness filter
(trimmed text starting with `.` or ending with `;`) is enforced client-side,
in `sendQuery`, which transmits a frame exactly when the test passes — so
non-conforming text never becomes a frame in the first place. -/
theorem c2_amended :
    (∀ s : Str, onMessageWrite (.text s) = some (s ++ ['\n'])) ∧
    onMessageWrite .binary = none ∧
    (∀ (q : Str) (wsOpen : Bool),
      (clientSendFrame q wsOpen).isSome = (isValidQuery q && wsOpen)) := by
  refine ⟨fun s => rfl, rfl, fun q w => ?_⟩
  cases h : isValidQuery q && w <;> simp [clientSendFrame, h]

/-! ## Claim C4 -/

/-- Claim C4, as stated, is false: it says a failure of the history INSERT is
swallowed and leaves the command's response unchanged.  In the /api/query
handler `saveQueryHistory` is awaited inside the same `try` as the command, so
its failure reaches the shared `catch`: the response flips from the command's
output to a 400 error. -/
theorem c4_counterexample :
    ¬ (∀ (cmd : CmdOutcome) (h1 h2 : HistOutcome),
        apiQueryJson cmd h1 = apiQueryJson cmd h2) := by
  intro h
  exact absurd
    (h (.ok "output".toList) .ok (.err "history insert failed".toList))
    (by decide)

/-- Claim C4 (amended): a history-write failure after a successful command is
not swallowed — it turns the response into a 400 carrying the history error,
while a successful history write leaves the command's output with status 200. -/
theorem c4_amended :
    ∀ out e : Str,
      apiQueryJson (.ok out) .ok = ⟨200, .outText out⟩ ∧
      apiQueryJson (.ok out) (.err e) = ⟨400, .errMsg e⟩ := by
  intro out e
  exact ⟨rfl, rfl⟩

/-! ## Claim C5 -/

/-- Claim C5, as stated, is false in its no-pipelining half: after writing a
well-formed input the bridge is claimed to write nothing else until the
command's completion or error event.  The bridge performs no serialization:
two consecutive well-formed frames produce two back-to-back stdin writes with
no intervening event of any kind. -/
theorem c5_counterexample :
    ¬ (∀ tr : List BridgeEv, framesWellFormed tr = true →
        hasAdjacentWrites (bridgeRun tr) = false) := by
  intro h
  exact absurd
    (h [.fromClient (.text "SELECT 1;".toList),
        .fromClient (.text "SELECT 2;".toList)] (by decide))
    (by decide)

/-- Claim C5 (amended): for every text frame the bridge writes exactly that
text with a single newline appended, unmodified and in arrival order — the
stdin writes along any trace are precisely the client texts, each
newline-appended; but the bridge enforces no serialization between writes. -/
theorem c5_amended :
    ∀ tr : List BridgeEv,
      stdinWrites tr = (clientTexts tr).map (fun s => s ++ ['\n']) := by
  intro tr
  induction tr with
  | nil => rfl
  | cons e t ih =>
    cases e with
    | fromClient f =>
      cases f <;>
        simp_all [stdinWrites, clientTexts, bridgeRun, bridgeStep]
    | outChunk s =>
      simp_all [stdinWrites, clientTexts, bridgeRun, bridgeStep]
    | errChunk s =>
      simp_all [stdinWrites, clientTexts, bridgeRun, bridgeStep]

/-! ## Claim C6 -/

/-- Hex digits are injective below 16. -/
theorem digitChar_inj_lt16 :
    ∀ a < 16, ∀ b < 16, Nat.digitChar a = Nat.digitChar b → a = b := by
  decide

/-- Two-digit hex renderings of bytes are injective. -/
theorem byteToHex_inj (a b : Nat) (ha : a < 256) (hb : b < 256)
    (h : byteToHex a = byteToHex b) : a = b := by
  have h1 : Nat.digitChar (a / 16) = Nat.digitChar (b / 16) :=
    congrArg (fun l => l.headI) h
  have h2 : Nat.digitChar (a % 16) = Nat.digitChar (b % 16) := by
    have := congrArg (fun l => l.getLast?) h
    simpa [byteToHex] using this
  have hd : a / 16 = b / 16 :=
    digitChar_inj_lt16 (a / 16) (by omega) (b / 16) (by omega) h1
  have hm : a % 16 = b % 16 :=
    digitChar_inj_lt16 (a % 16) (by omega) (b % 16) (by omega) h2
  omega

/-- The hex encoding of a byte list is injective. -/
theorem hexEncode_inj (xs : List Nat) :
    ∀ ys : List Nat, (∀ b ∈ xs, b < 256) → (∀ b ∈ ys, b < 256) →
      hexEncode xs = hexEncode ys → xs = ys := by
  induction xs with
  | nil =>
    intro ys _ _ h
    cases ys with
    | nil => rfl
    | cons y t => simp [hexEncode, byteToHex] at h
  | cons x xs ih =>
    intro ys hx hy h
    cases ys with
    | nil => simp [hexEncode, byteToHex] at h
    | cons y t =>
      simp only [hexEncode, List.map_cons, List.flatten_cons] at h
      have hsplit := List.append_inj h (by simp [byteToHex])
      have hx1 : x = y :=
        byteToHex_inj x y (hx x (by simp)) (hy y (by simp)) hsplit.1
      have ht : xs = t :=
        ih t (fun b hb => hx b (by simp [hb])) (fun b hb => hy b (by simp [hb]))
          hsplit.2
      rw [hx1, ht]

/-- Claim C6: the fingerprint is deterministic — the same text always yields
the same value — and, under the collision-resistance assumption on the
external SHA-256 digest (stated as the hypothesis that the digests of the two
texts differ), two distinct texts receive distinct fingerprints: the hex
rendering `hashQuery` performs cannot merge distinct digests. -/
theorem c6_fingerprint (digest : Str → List Nat)
    (hbound : ∀ s : Str, ∀ b ∈ digest s, b < 256) (s t : Str) :
    hashQuery digest s = hashQuery digest s ∧
    (digest s ≠ digest t → hashQuery digest s ≠ hashQuery digest t) := by
  refine ⟨rfl, fun hne heq => hne ?_⟩
  exact hexEncode_inj (digest s) (digest t) (hbound s) (hbound t) heq

/-- Witness for `c6_fingerprint` at a concrete digest and texts whose digests
differ. -/
theorem c6_witness :
    hashQuery testDigest "a".toList = hashQuery testDigest "a".toList ∧
    hashQuery testDigest "a".toList ≠ hashQuery testDigest "ab".toList := by
  have h := c6_fingerprint testDigest
    (by
      intro s b hb
      simp [testDigest] at hb
      omega)
    "a".toList "ab".toList
  exact ⟨h.1, h.2 (by decide)⟩

/-! ## Claim C7 -/

/-- Claim C7, as stated, is false: it says every spawned subprocess —
including those created for WebSocket sessions — receives the initialization
commands before any user command.  `handleWebSocket` (src/server.ts) spawns
its subprocess and installs handlers without writing anything to its stdin. -/
theorem c7_counterexample :
    ¬ (hasInitWrites duckdbCtorWrites ∧ hasInitWrites wsSessionInitWrites) := by
  intro h
  exact absurd h.2 (by decide)

/-- Claim C7 (amended): only processes spawned through the `DuckDB` supervisor
class receive the initialization writes — exactly `.echo on`, `.timer on` and
the idempotent CREATE TABLE, in that order, each newline-appended — while a
WebSocket-session process receives no initialization writes at all. -/
theorem c7_amended :
    duckdbCtorWrites =
      [runCmdWrite echoCmd, runCmdWrite timerCmd,
        runCmdWrite createHistoryTableSql] ∧
    hasInitWrites duckdbCtorWrites ∧
    wsSessionInitWrites = [] := by
  exact ⟨rfl, by decide, rfl⟩

/-! ## Claim C8 -/

/-- An environment in which both the search-path binary and the cached install
location exist. -/
def bothPresentEnv : ProvEnv :=
  ⟨"/usr/bin/duckdb".toList,
   fun p => p == "/usr/bin/duckdb".toList || p == tmpDuckDBPath, true⟩

/-- Claim C8, as stated, is false in its ordering half: it says `ensure()`
checks the cached install location first and the search path second.
`getDuckDB` iterates `[whichPath, "/tmp/duckdb"]`: when both exist it returns
the search-path binary, where the spec's order would return the cached one. -/
theorem c8_counterexample :
    getDuckDB bothPresentEnv = .ok "/usr/bin/duckdb".toList false ∧
    ensureSpecOrder bothPresentEnv = .ok tmpDuckDBPath false ∧
    "/usr/bin/duckdb".toList ≠ tmpDuckDBPath := by
  decide

/-- Claim C8 (amended): `getDuckDB` checks the search-path executable first
and the cached install location `/tmp/duckdb` second; it downloads only when
neither exists, failing if the download fails; and it is idempotent — after
any successful call, a second call in the resulting filesystem performs no
download. -/
theorem c8_amended :
    (∀ e : ProvEnv, e.present e.whichPath = true →
        getDuckDB e = .ok e.whichPath false) ∧
    (∀ e : ProvEnv, e.present e.whichPath = false →
        e.present tmpDuckDBPath = true →
        getDuckDB e = .ok tmpDuckDBPath false) ∧
    (∀ e : ProvEnv, e.present e.whichPath = false →
        e.present tmpDuckDBPath = false →
        getDuckDB e =
          if e.downloadOk then .ok tmpDuckDBPath true else .installFailed) ∧
    (∀ (e : ProvEnv) (p : Str) (d : Bool), getDuckDB e = .ok p d →
        ∃ p2, getDuckDB (afterRun e d) = .ok p2 false) := by
  refine ⟨?_, ?_, ?_, ?_⟩
  · intro e h
    simp [getDuckDB, h]
  · intro e h1 h2
    simp [getDuckDB, h1, h2]
  · intro e h1 h2
    simp [getDuckDB, h1, h2]
  · intro e p d h
    unfold getDuckDB at h
    by_cases h1 : e.present e.whichPath = true
    · rw [if_pos h1] at h
      obtain ⟨rfl, rfl⟩ : p = e.whichPath ∧ d = false := by
        cases h; exact ⟨rfl, rfl⟩
      exact ⟨e.whichPath, by simp [afterRun, getDuckDB, h1]⟩
    · rw [if_neg h1] at h
      by_cases h2 : e.present tmpDuckDBPath = true
      · rw [if_pos h2] at h
        obtain ⟨rfl, rfl⟩ : p = tmpDuckDBPath ∧ d = false := by
          cases h; exact ⟨rfl, rfl⟩
        exact ⟨tmpDuckDBPath, by simp [afterRun, getDuckDB, h1, h2]⟩
      · rw [if_neg h2] at h
        by_cases h3 : e.downloadOk = true
        · rw [if_pos h3] at h
          obtain ⟨rfl, rfl⟩ : p = tmpDuckDBPath ∧ d = true := by
            cases h; exact ⟨rfl, rfl⟩
          by_cases h4 : e.whichPath == tmpDuckDBPath
          · refine ⟨e.whichPath, ?_⟩
            simp only [afterRun, if_pos rfl, getDuckDB]
            simp [h4]
          · refine ⟨tmpDuckDBPath, ?_⟩
            simp only [afterRun, if_pos rfl, getDuckDB]
            simp only [Bool.or_eq_true, beq_iff_eq] at h4 ⊢
            simp [h4, h1, h2]
        · rw [if_neg h3] at h
          cases h

/-- Witness for `c8_amended`: the search-path hit at `bothPresentEnv`, and
idempotence after a run that downloads into an initially empty filesystem. -/
theorem c8_witness :
    getDuckDB bothPresentEnv = .ok bothPresentEnv.whichPath false ∧
    (∃ p2, getDuckDB (afterRun ⟨[], fun _ => false, true⟩ true) = .ok p2 false) := by
  refine ⟨c8_amended.1 bothPresentEnv (by decide), ?_⟩
  exact c8_amended.2.2.2 ⟨[], fun _ => false, true⟩ tmpDuckDBPath true (by decide)

/-! ## Claim C9 -/

/-- Claim C9, as stated, is false in its default clause: the CREATE TABLE in
`initQueryHistoryTable` declares `execution_time TIMESTAMP` with no DEFAULT,
while the claim states a default of the current time. -/
theorem c9_counterexample : historyTableColumns ≠ specHistoryColumns := by
  decide

/-- Claim C9 (amended): the history table has exactly the five columns
query_hash (varchar), query_text (text), result_file (varchar), query_time
(double) and execution_time (timestamp), none with a declared default; the
INSERT of `saveQueryHistory` targets exactly those columns in order and always
supplies five values, the last being an explicit CURRENT_TIMESTAMP. -/
theorem c9_amended :
    historyTableColumns.map ColumnDef.name = saveQueryHistoryColumns ∧
    historyTableColumns.map ColumnDef.ctype =
      [.varchar, .text, .varchar, .double, .timestamp] ∧
    historyTableColumns.map ColumnDef.dflt = [none, none, none, none, none] ∧
    (∀ queryHash queryText resultFile queryTime : Str,
      (saveQueryHistoryValues queryHash queryText resultFile queryTime).length
          = saveQueryHistoryColumns.length ∧
      (saveQueryHistoryValues queryHash queryText resultFile queryTime).getLast?
          = some .currentTimestamp) := by
  exact ⟨rfl, rfl, rfl, fun _ _ _ _ => ⟨rfl, rfl⟩⟩

/-! ## Claim C10 -/

/-- `Nat.digitChar` never renders `'?'`. -/
theorem digitChar_ne_q (m : Nat) : Nat.digitChar m ≠ '?' := by
  by_cases h : m < 16
  · interval_cases m <;> decide
  · unfold Nat.digitChar
    simp only [if_neg (by omega : ¬ (m = 0)), if_neg (by omega : ¬ (m = 1)),
      if_neg (by omega : ¬ (m = 2)), if_neg (by omega : ¬ (m = 3)),
      if_neg (by omega : ¬ (m = 4)), if_neg (by omega : ¬ (m = 5)),
      if_neg (by omega : ¬ (m = 6)), if_neg (by omega : ¬ (m = 7)),
      if_neg (by omega : ¬ (m = 8)), if_neg (by omega : ¬ (m = 9)),
      if_neg (by omega : ¬ (m = 10)), if_neg (by omega : ¬ (m = 11)),
      if_neg (by omega : ¬ (m = 12)), if_neg (by omega : ¬ (m = 13)),
      if_neg (by omega : ¬ (m = 14)), if_neg (by omega : ¬ (m = 15))]
    decide

/-- Decimal renderings contain no `'?'`. -/
theorem natToChars_no_q (n : Nat) : '?' ∉ natToChars n := by
  induction n using Nat.strong_induction_on with
  | _ n ih =>
    rw [natToChars]
    split
    · intro hmem
      simp only [List.mem_singleton] at hmem
      exact digitChar_ne_q n hmem.symm
    · intro hmem
      rcases List.mem_append.mp hmem with hl | hr
      · exact ih (n / 10) (Nat.div_lt_self (by omega) (by omega)) hl
      · simp only [List.mem_singleton] at hr
        exact digitChar_ne_q (n % 10) hr.symm

/-- `'?'` counting distributes over append. -/
theorem countQ_append (a b : Str) : countQ (a ++ b) = countQ a + countQ b :=
  List.count_append '?' a b

/-- A text without `'?'` counts zero. -/
theorem countQ_eq_zero {l : Str} (h : '?' ∉ l) : countQ l = 0 :=
  List.count_eq_zero.mpr h

/-- `join(sep)` with a `'?'`-free separator preserves the total count. -/
theorem countQ_joinSep (sep : Str) (hsep : countQ sep = 0) :
    ∀ xs : List Str, countQ (joinSep sep xs) = (xs.map countQ).sum := by
  intro xs
  induction xs with
  | nil => rfl
  | cons x t ih =>
    cases t with
    | nil => simp [joinSep]
    | cons y u =>
      simp only [joinSep, List.map_cons, List.sum_cons, countQ_append, hsep] at ih ⊢
      omega

/-- The generated `$1, $2, ...` placeholder list contains no `'?'`. -/
theorem countQ_paramPlaceholders (k : Nat) : countQ (paramPlaceholders k) = 0 := by
  unfold paramPlaceholders
  rw [countQ_joinSep _ (by decide)]
  refine List.sum_eq_zero ?_
  intro x hx
  simp only [List.map_map, List.mem_map, List.mem_range] at hx
  obtain ⟨i, -, rfl⟩ := hx
  simp only [Function.comp_apply, countQ, List.count_cons]
  rw [List.count_eq_zero.mpr (natToChars_no_q (i + 1))]
  decide

/-- `String.prototype.replace` with pattern `'?'` rewrites exactly the first
occurrence: on `a ++ '?' :: b` with `'?' ∉ a` the result is `a ++ repl ++ b`. -/
theorem replaceFirstChar_split (repl : Str) :
    ∀ a b : Str, '?' ∉ a →
      replaceFirstChar '?' repl (a ++ '?' :: b) = a ++ repl ++ b := by
  intro a
  induction a with
  | nil => intro b _; simp [replaceFirstChar]
  | cons x xs ih =>
    intro b ha
    have hx : ¬ (x = '?') := fun hh => ha (by simp [hh])
    have step : replaceFirstChar '?' repl ((x :: xs) ++ '?' :: b)
        = x :: replaceFirstChar '?' repl (xs ++ '?' :: b) := by
      simp only [List.cons_append, replaceFirstChar, if_neg hx, List.append_eq]
    rw [step, ih b (fun hh => ha (List.mem_cons_of_mem _ hh))]
    simp

/-- Replacing the first `'?'` with a `'?'`-free replacement removes exactly
one occurrence. -/
theorem countQ_replaceFirstChar (repl : Str) (hrepl : countQ repl = 0) :
    ∀ l : Str, '?' ∈ l →
      countQ (replaceFirstChar '?' repl l) + 1 = countQ l := by
  intro l
  induction l with
  | nil => intro h; cases h
  | cons x xs ih =>
    intro hmem
    by_cases hx : x = '?'
    · subst hx
      have hr : List.count '?' repl = 0 := hrepl
      simp [replaceFirstChar, countQ, List.count_append, List.count_cons, hr]
    · have hmem' : '?' ∈ xs := by
        rcases List.mem_cons.mp hmem with hh | hh
        · exact absurd hh.symm hx
        · exact hh
      simp only [replaceFirstChar, if_neg hx, countQ, List.count_cons] at ih ⊢
      have := ih hmem'
      simp only [countQ] at this
      omega

/-- The `SET` clause of the PUT handler carries one `'?'` per column. -/
theorem countQ_setClauses (cols : List Str) (hc : ∀ x ∈ cols, '?' ∉ x) :
    countQ (setClauses cols) = cols.length := by
  unfold setClauses
  rw [countQ_joinSep _ (by decide)]
  induction cols with
  | nil => rfl
  | cons x t ih =>
    simp only [List.map_cons, List.sum_cons, List.length_cons]
    rw [ih (fun y hy => hc y (List.mem_cons_of_mem _ hy))]
    rw [countQ_append, countQ_eq_zero (hc x (by simp))]
    have : countQ " = ?".toList = 1 := by decide
    omega

/-- Claim C10: `DuckDB.query` replaces only the first `'?'` of the SQL by the
generated placeholder list (whatever the parameter count `k`), and the PUT
/api/:table/:id handler builds SQL with one `'?'` per updated column plus one
for the id — at least two for any non-empty column set — so after the
substitution every later `'?'` remains literal in the prepared statement. -/
theorem c10_first_question_only (table : Str) (cols : List Str) (k : Nat)
    (ht : '?' ∉ table) (hc : ∀ x ∈ cols, '?' ∉ x) (hne : cols ≠ []) :
    countQ (putSql table cols) = cols.length + 1 ∧
    countQ (fullSql (putSql table cols) k) = cols.length ∧
    '?' ∈ fullSql (putSql table cols) k := by
  have h1 : countQ (putSql table cols) = cols.length + 1 := by
    unfold putSql
    simp only [countQ_append, countQ_eq_zero ht, countQ_setClauses cols hc]
    have e1 : countQ "UPDATE ".toList = 0 := by decide
    have e2 : countQ " SET ".toList = 0 := by decide
    have e3 : countQ " WHERE id = ? RETURNING *".toList = 1 := by decide
    omega
  have hmem : '?' ∈ putSql table cols := by
    have hpos : 0 < countQ (putSql table cols) := by omega
    exact List.count_pos_iff.mp hpos
  have h2 : countQ (fullSql (putSql table cols) k) + 1 = cols.length + 1 := by
    unfold fullSql
    rw [countQ_replaceFirstChar _ (countQ_paramPlaceholders k) _ hmem, h1]
  have hlen : 0 < cols.length := List.length_pos.mpr hne
  have h3 : '?' ∈ fullSql (putSql table cols) k := by
    have hpos : 0 < countQ (fullSql (putSql table cols) k) := by omega
    exact List.count_pos_iff.mp hpos
  exact ⟨h1, by omega, h3⟩

/-- Witness for `c10_first_question_only` at a two-column update: three
question marks before substitution, two literal ones left after it. -/
theorem c10_witness :
    countQ (putSql "t".toList ["a".toList, "b".toList]) = 3 ∧
    countQ (fullSql (putSql "t".toList ["a".toList, "b".toList]) 3) = 2 ∧
    '?' ∈ fullSql (putSql "t".toList ["a".toList, "b".toList]) 3 := by
  have h := c10_first_question_only "t".toList ["a".toList, "b".toList] 3
    (by decide) (by decide) (by decide)
  simpa using h

end Feather
